import Mathlib

/-!
Shallow embedding of the apartment-listing client (script.js) and the REST
relay (index.js) of The-Grand-Residences: the filter/sort state, the
paginated fetch controller `fetchFlats`, favorites synchronization,
currency redisplay, defensive amenities parsing, and the relay's sortBy
handling.  Prices and exchange rates are modelled as rationals; the
document store is a list of `Flat` records; transport failure is an
explicit boolean input.  Query construction is fallible (`Except`): the
store SDK rejects a NaN bound in a range comparison synchronously at
where(), before any favorites short-circuit or network round trip.
-/

/-! ## Models of host builtins -/

/-- An exact rational model of a JS number: an integer numerator over a
positive natural denominator, not normalized (comparisons are by cross
multiplication, so representation does not matter).  Chosen over `Rat`
so that every operation reduces inside the kernel. -/
structure JsNum where
  num : ℤ
  den : ℕ
deriving DecidableEq

instance (n : ℕ) : OfNat JsNum n := ⟨⟨n, 1⟩⟩

/-- Addition of model numbers. -/
def jsAdd (a b : JsNum) : JsNum :=
  ⟨a.num * b.den + b.num * a.den, a.den * b.den⟩

/-- Multiplication of model numbers. -/
def jsMul (a b : JsNum) : JsNum :=
  ⟨a.num * b.num, a.den * b.den⟩

/-- Negation of a model number. -/
def jsNeg (a : JsNum) : JsNum := ⟨-a.num, a.den⟩

/-- Value equality of model numbers (cross multiplication). -/
def jsNumEq (a b : JsNum) : Bool :=
  a.num * b.den == b.num * a.den

/-- Value order of model numbers (cross multiplication; denominators are
positive by construction). -/
def jsNumLe (a b : JsNum) : Bool :=
  decide (a.num * b.den ≤ b.num * a.den)

/-- Strict value order of model numbers. -/
def jsNumLt (a b : JsNum) : Bool :=
  decide (a.num * b.den < b.num * a.den)

/-- Floor of a model number (floor division of the numerator). -/
def JsNum.floor (a : JsNum) : ℤ := a.num.fdiv a.den

/-- The mathematical value of a model number. -/
def JsNum.toRat (a : JsNum) : ℚ := (a.num : ℚ) / (a.den : ℚ)

/-- A character is an ASCII decimal digit. -/
def isDigitCh (c : Char) : Bool :=
  48 ≤ c.toNat && c.toNat ≤ 57

/-- Numeric value of a digit character. -/
def digitVal (c : Char) : Nat := c.toNat - 48

/-- Value of a digit string read most-significant first. -/
def natOfDigits (l : List Char) : Nat :=
  l.foldl (fun n c => 10 * n + digitVal c) 0

/-- Fractional value of the digits after a decimal point. -/
def fracOfDigits (l : List Char) : JsNum :=
  ⟨natOfDigits l, 10 ^ l.length⟩

/-- Model of the host parseFloat: skip leading whitespace, optional sign,
decimal digits with an optional fractional part, trailing junk ignored.
`none` stands for NaN (no parsable numeric prefix).  Exponent notation is
not modelled. -/
def jsParseFloat (s : String) : Option JsNum :=
  let cs := s.toList.dropWhile (fun c => c == ' ' || c == '\t' || c == '\n' || c == '\r')
  let signAndRest : Bool × List Char :=
    match cs with
    | '-' :: rest => (true, rest)
    | '+' :: rest => (false, rest)
    | _ => (false, cs)
  let intPart := signAndRest.2.takeWhile isDigitCh
  let afterInt := signAndRest.2.dropWhile isDigitCh
  let fracPart :=
    match afterInt with
    | '.' :: r => r.takeWhile isDigitCh
    | _ => []
  if intPart.isEmpty && fracPart.isEmpty then none
  else
    let magnitude := jsAdd ⟨natOfDigits intPart, 1⟩ (fracOfDigits fracPart)
    some (if signAndRest.1 then jsNeg magnitude else magnitude)

/-- Lexicographic order on character lists by code point (model of the
code-unit comparison the store uses for document-id tie-breaks). -/
def charListLt : List Char → List Char → Bool
  | [], [] => false
  | [], _ :: _ => true
  | _ :: _, [] => false
  | a :: as, b :: bs =>
    if a.toNat < b.toNat then true
    else if b.toNat < a.toNat then false
    else charListLt as bs

/-- String order used for document-id tie-breaks. -/
def strLt (a b : String) : Bool := charListLt a.toList b.toList

/-! ## Data model -/

/-- One listed apartment record (a document of the flats collection);
only the fields the fetch controller queries are kept. -/
structure Flat where
  id : String
  price : JsNum
  area : JsNum
  offerType : String
  type : String
deriving DecidableEq

/-- The filter snapshot held in `currentFilters` (script.js lines 86-94):
price bounds are kept as the raw UI strings, exactly as the source stores
them. -/
structure FilterState where
  offerType : String
  flatType : String
  minPrice : String
  maxPrice : String
  sortBy : String
  searchTerm : String
  showFavorites : Bool
deriving DecidableEq

/-- Default filter state (script.js lines 86-94). -/
def initialFilters : FilterState :=
  { offerType := "all", flatType := "all", minPrice := "", maxPrice := ""
    sortBy := "price-desc", searchTerm := "", showFavorites := false }

/-- The page size constant CONFIG.flatsPerPage. -/
def flatsPerPage : Nat := 6

/-! ## Sorting (model of the store's orderBy) -/

/-- Insert into a list sorted by `le`. -/
def insertLe (le : Flat → Flat → Bool) (x : Flat) : List Flat → List Flat
  | [] => [x]
  | y :: ys => if le x y then x :: y :: ys else y :: insertLe le x ys

/-- Sort a list by `le` (insertion sort; the store's ordering is a total
order once the document-id tie-break is included, so any correct sort
produces the same list). -/
def sortListLe (le : Flat → Flat → Bool) : List Flat → List Flat
  | [] => []
  | x :: xs => insertLe le x (sortListLe le xs)

/-- Ascending order on a numeric field with document-id tie-break. -/
def leAsc (key : Flat → JsNum) (a b : Flat) : Bool :=
  jsNumLt (key a) (key b) || (jsNumEq (key a) (key b) && (a.id == b.id || strLt a.id b.id))

/-- Descending order on a numeric field with document-id tie-break
(the implicit id ordering is also reversed, as the store does). -/
def leDesc (key : Flat → JsNum) (a b : Flat) : Bool :=
  jsNumLt (key b) (key a) || (jsNumEq (key a) (key b) && (a.id == b.id || strLt b.id a.id))

/-- The comparator selected by the sortBy branch of fetchFlats
(script.js lines 642-652): price-asc, price-desc, area-asc, area-desc,
falling back to price-desc for anything unrecognized. -/
def sortLe (sortBy : String) (a b : Flat) : Bool :=
  if sortBy == "price-asc" then leAsc Flat.price a b
  else if sortBy == "price-desc" then leDesc Flat.price a b
  else if sortBy == "area-asc" then leAsc Flat.area a b
  else if sortBy == "area-desc" then leDesc Flat.area a b
  else leDesc Flat.price a b

/-! ## Query composition (script.js lines 618-656) -/

/-- An equality/membership predicate stage: when `active`, restrict to the
records satisfying `p` (model of a conditional where clause). -/
def stageEq (active : Bool) (p : Flat → Bool) (l : List Flat) : List Flat :=
  if active then l.filter p else l

/-- A price-bound stage.  The source guards the clause with JS truthiness
of the RAW string (`if (currentFilters.minPrice)`) and only then parses it
with parseFloat; when the parse of a non-empty string fails, the where()
call receives a NaN range bound, which the store SDK rejects by throwing
at query construction — the error case here. -/
def priceStage (raw : String) (cmp : JsNum → Flat → Bool) (l : List Flat) :
    Except Unit (List Flat) :=
  if raw == "" then Except.ok l
  else
    match jsParseFloat raw with
    | some v => Except.ok (l.filter (cmp v))
    | none => Except.error ()

/-- The two price-bound clauses in source order (minPrice then maxPrice);
the first throwing clause aborts the composition. -/
def priceStages (f : FilterState) (l : List Flat) : Except Unit (List Flat) :=
  match priceStage f.minPrice (fun v u => jsNumLe v u.price) l with
  | Except.error e => Except.error e
  | Except.ok l3 => priceStage f.maxPrice (fun v u => jsNumLe u.price v) l3

/-- The predicate chain of fetchFlats in source order: offerType equality,
type equality, price lower bound, price upper bound (either of which can
throw on a NaN bound), favorites membership.  The favorites-empty
short-circuit of line 633 is handled in `fetchFlats` itself, after these
clauses are composed, as in the source. -/
def applyFilters (f : FilterState) (favorites : List String) (store : List Flat) :
    Except Unit (List Flat) :=
  match priceStages f
      (stageEq (!(f.flatType == "all")) (fun u => u.type == f.flatType)
        (stageEq (!(f.offerType == "all")) (fun u => u.offerType == f.offerType) store)) with
  | Except.error e => Except.error e
  | Except.ok s4 =>
    Except.ok (stageEq (f.showFavorites && !favorites.isEmpty)
      (fun u => favorites.contains u.id) s4)

/-- Cursor positioning: startAfter with a held document snapshot drops
everything up to and including that document in the ordered results
(documents are identified by id). -/
def startAfterDoc (cursor : Option Flat) (l : List Flat) : List Flat :=
  match cursor with
  | none => l
  | some c => ((l.dropWhile (fun x => !(x.id == c.id))).drop 1)

/-! ## Paginated fetch controller state -/

/-- The mutable page state of the controller: the accumulated records
`allFlatsData`, the running count, the pagination cursor
`lastVisibleFlat`, and the UI signals the controller drives (load-more
affordance, no-flats message visibility and text). -/
structure PageState where
  allFlatsData : List Flat
  displayedFlatsCount : Nat
  lastVisibleFlat : Option Flat
  loadMoreVisible : Bool
  noFlatsVisible : Bool
  noFlatsText : String
deriving DecidableEq

/-- Page state at startup. -/
def initialPageState : PageState :=
  { allFlatsData := [], displayedFlatsCount := 0, lastVisibleFlat := none
    loadMoreVisible := false, noFlatsVisible := false, noFlatsText := "" }

/-- The environment a fetch runs against: the flats collection, the
favorites id set, and whether the single store round trip fails in
transport (the nondeterministic input that triggers the catch branch). -/
structure FetchEnv where
  store : List Flat
  favorites : List String
  netFail : Bool
deriving DecidableEq

/-- What a fetchFlats call signalled to the caller. -/
inductive FetchSignal where
  | noFavorites
  | noResults
  | endOfPagination
  | pageLoaded
  | loadError
deriving DecidableEq

/-- Observable outcome of one fetchFlats call: the new page state, the
page of records the call fetched, how many store round trips it issued,
and the signal surfaced to the caller. -/
structure FetchResult where
  state : PageState
  fetched : List Flat
  networkCalls : Nat
  signal : FetchSignal
deriving DecidableEq

/-- The reset performed at the top of fetchFlats when `reset` is true
(script.js lines 608-616): clear the accumulated records, the count and
the cursor, hide the load-more button and the no-flats message. -/
def resetState (s : PageState) : PageState :=
  { s with allFlatsData := [], displayedFlatsCount := 0, lastVisibleFlat := none
           loadMoreVisible := false, noFlatsVisible := false }

/-- Message texts used by fetchFlats. -/
def noFavoritesText : String := "No favorite apartments found."

/-- No-results message (reset fetch returning an empty page). -/
def noResultsText : String := "No apartments found matching your criteria."

/-- Generic load-failure message (catch branch). -/
def loadErrorText : String := "Error loading apartments."

/-- The page the single store round trip returns for a composed filter
result: ordering, startAfter, limit to the page size. -/
def pageFor (sortBy : String) (cursor : Option Flat) (filtered : List Flat) : List Flat :=
  (startAfterDoc cursor (sortListLe (sortLe sortBy) filtered)).take flatsPerPage

/-- The paginated fetch controller (script.js lines 596-707).  Mirrors the
source control flow: optional reset of the page state; composition of the
where() clauses in source order, which throws on a NaN price bound
(lines 625-630, before the favorites branch at 633) and takes the catch
path with no round trip; otherwise the favorites-empty short-circuit
before any store call; then the single store round trip (which either
fails in transport — catch branch — or returns the composed page); then
result handling for the non-empty and empty page cases. -/
def fetchFlats (env : FetchEnv) (f : FilterState) (reset : Bool) (s0 : PageState) : FetchResult :=
  let s := if reset then resetState s0 else s0
  match applyFilters f env.favorites env.store with
  | Except.error _ =>
    { state := { s with noFlatsVisible := true, noFlatsText := loadErrorText }
      fetched := [], networkCalls := 0, signal := .loadError }
  | Except.ok filtered =>
    if f.showFavorites && env.favorites.isEmpty then
      { state := { s with noFlatsVisible := true, noFlatsText := noFavoritesText
                          loadMoreVisible := false }
        fetched := [], networkCalls := 0, signal := .noFavorites }
    else if env.netFail then
      { state := { s with noFlatsVisible := true, noFlatsText := loadErrorText }
        fetched := [], networkCalls := 1, signal := .loadError }
    else
      let paged := pageFor f.sortBy s.lastVisibleFlat filtered
      if 0 < paged.length then
        { state := { s with allFlatsData := s.allFlatsData ++ paged
                            displayedFlatsCount := s.displayedFlatsCount + paged.length
                            lastVisibleFlat := paged.getLast?
                            loadMoreVisible := paged.length == flatsPerPage
                            noFlatsVisible := false }
          fetched := paged, networkCalls := 1, signal := .pageLoaded }
      else
        { state := { s with loadMoreVisible := false
                            noFlatsVisible := reset || s.noFlatsVisible
                            noFlatsText := if reset then noResultsText else s.noFlatsText }
          fetched := [], networkCalls := 1
          signal := if reset then .noResults else .endOfPagination }

/-- handleApplyFilters (script.js lines 718-733): atomically replace the
filter fields with the UI snapshot — stored raw, with no coercion — and
trigger a reset fetch. -/
def handleApplyFilters (env : FetchEnv) (snapshot : FilterState) (s0 : PageState) : FetchResult :=
  fetchFlats env snapshot true s0

/-- handleLoadMore (script.js lines 735-737): a continuation fetch. -/
def handleLoadMore (env : FetchEnv) (f : FilterState) (s0 : PageState) : FetchResult :=
  fetchFlats env f false s0

/-! ## Currency redisplay (script.js lines 102-110 and 739-746) -/

/-- CONFIG.exchangeRates (script.js lines 18-48). -/
def exchangeRates : List (String × JsNum) :=
  [("USD", 1), ("EUR", ⟨92, 100⟩), ("GBP", ⟨79, 100⟩), ("CAD", ⟨136, 100⟩),
   ("AUD", ⟨152, 100⟩), ("JPY", 156), ("INR", ⟨833, 10⟩), ("BRL", ⟨508, 100⟩),
   ("ZAR", ⟨185, 10⟩), ("NZD", ⟨163, 100⟩), ("CHF", ⟨90, 100⟩), ("SGD", ⟨135, 100⟩),
   ("HKD", ⟨78, 10⟩), ("SEK", ⟨108, 10⟩), ("NOK", ⟨108, 10⟩), ("DKK", ⟨68, 10⟩),
   ("PLN", ⟨39, 10⟩), ("MXN", ⟨166, 10⟩), ("AED", ⟨367, 100⟩), ("SAR", ⟨375, 100⟩),
   ("RUB", 89), ("TRY", ⟨322, 10⟩), ("THB", ⟨366, 10⟩), ("IDR", 16200),
   ("MYR", ⟨47, 10⟩), ("PHP", ⟨585, 10⟩), ("VND", 25400), ("KRW", 1360),
   ("EGP", ⟨477, 10⟩)]

/-- Rate lookup; `none` models the undefined lookup (and the resulting
NaN product) for a currency code not in the table. -/
def lookupRate (c : String) : Option JsNum :=
  (exchangeRates.find? (fun e => e.1 == c)).map (fun e => e.2)

/-- Model of the Intl number format with zero fraction digits: round half
away from zero to an integer. -/
def roundHalfExpand (x : JsNum) : ℤ :=
  if jsNumLe 0 x then (jsAdd x ⟨1, 2⟩).floor else -((jsAdd (jsNeg x) ⟨1, 2⟩).floor)

/-- formatPrice (script.js lines 102-110): the displayed amount is the
stored base price times the rate of the current currency, rounded for
display; `none` models the NaN display for an unknown currency code. -/
def displayPrice (currency : String) (price : JsNum) : Option ℤ :=
  (lookupRate currency).map (fun r => roundHalfExpand (jsMul price r))

/-- The state the currency switcher acts on: the selected currency, the
accumulated records, and the prices currently rendered from them. -/
structure DisplayState where
  currentCurrency : String
  allFlatsData : List Flat
  rendered : List (Option ℤ)
deriving DecidableEq

/-- handleCurrencyChange (script.js lines 739-746): set the current
currency and re-render every accumulated record through formatPrice.  It
reads only `allFlatsData` — no store query is issued and the accumulated
records are not modified. -/
def handleCurrencyChange (c : String) (s : DisplayState) : DisplayState :=
  { currentCurrency := c
    allFlatsData := s.allFlatsData
    rendered := s.allFlatsData.map (fun u => displayPrice c u.price) }

/-! ## Favorites synchronization (script.js lines 387-421 and 905-941) -/

/-- The favorites stores visible to the client: the in-memory id set and
the local-storage cache entry (`none` = entry removed). -/
structure AuthFavState where
  favorites : List String
  localFavorites : Option (List String)
deriving DecidableEq

/-- Effect on the favorites stores of the auth-state callback observing a
signed-out session (script.js lines 924-933): the in-memory set is
cleared and the local-storage entry is removed. -/
def onAuthSignedOut (_s : AuthFavState) : AuthFavState :=
  { favorites := [], localFavorites := none }

/-- toggleFavorite (script.js lines 387-421), success path: given the
remote favorites list read from the user document and the local favorites
list, flip membership of `flatId` in both (the remote list by splice at
the first index, the local list by filtering the id out) and return
(new remote list, new local list). -/
def toggleFavorite (flatId : String) (userFavorites favorites : List String) :
    List String × List String :=
  if userFavorites.contains flatId then
    (userFavorites.erase flatId, favorites.filter (fun i => !(i == flatId)))
  else
    (userFavorites ++ [flatId], favorites ++ [flatId])

/-! ## Defensive amenities parsing (script.js lines 176-198) -/

/-- A JSON-ish element of a stored amenities sequence: a string, or any
non-string value. -/
inductive JsItem where
  | strVal (s : String)
  | otherVal
deriving DecidableEq

/-- Whether an element is a string (the typeof check of the source). -/
def JsItem.isStr : JsItem → Bool
  | .strVal _ => true
  | .otherVal => false

/-- The shapes an amenities field can hold in a stored document: absent
(null/undefined), a sequence of values, or a single string. -/
inductive StoredAmenities where
  | absent
  | list (items : List JsItem)
  | strVal (s : String)
deriving DecidableEq

/-- Skip JSON whitespace. -/
def skipWs (l : List Char) : List Char :=
  l.dropWhile (fun c => c == ' ' || c == '\t' || c == '\n' || c == '\r')

/-- Parse the remainder of a JSON string literal (opening quote already
consumed), accumulating characters until the closing quote.  Models the
escapes for quote, backslash and slash; other escape sequences are
treated as parse failures. -/
def parseStringLitAux : List Char → List Char → Option (String × List Char)
  | _, [] => none
  | acc, c :: rest =>
    if c == '"' then some (String.mk acc.reverse, rest)
    else if c == '\\' then
      match rest with
      | [] => none
      | d :: rest2 =>
        if d == '"' || d == '\\' || d == '/' then parseStringLitAux (d :: acc) rest2
        else none
    else parseStringLitAux (c :: acc) rest

/-- A character that may appear in a JSON number token. -/
def isNumTokenCh (c : Char) : Bool :=
  isDigitCh c || c == '-' || c == '+' || c == '.' || c == 'e' || c == 'E'

/-- Parse the elements of a JSON array after the opening bracket,
fuel-bounded by the input length.  String literals become `JsItem.strVal`;
number, true, false and null tokens become `JsItem.otherVal`; anything
else is a parse failure. -/
def parseItemsAux : Nat → List Char → List JsItem → Option (List JsItem)
  | 0, _, _ => none
  | fuel + 1, cs, acc =>
    match skipWs cs with
    | [] => none
    | c :: rest =>
      let parsedElem : Option (JsItem × List Char) :=
        if c == '"' then
          (parseStringLitAux [] rest).map (fun p => (JsItem.strVal p.1, p.2))
        else if isDigitCh c || c == '-' then
          some (JsItem.otherVal, (c :: rest).dropWhile isNumTokenCh)
        else if (c :: rest).take 4 == ['t', 'r', 'u', 'e'] then
          some (JsItem.otherVal, (c :: rest).drop 4)
        else if (c :: rest).take 5 == ['f', 'a', 'l', 's', 'e'] then
          some (JsItem.otherVal, (c :: rest).drop 5)
        else if (c :: rest).take 4 == ['n', 'u', 'l', 'l'] then
          some (JsItem.otherVal, (c :: rest).drop 4)
        else none
      match parsedElem with
      | none => none
      | some (item, afterElem) =>
        match skipWs afterElem with
        | ',' :: r => parseItemsAux fuel r (item :: acc)
        | ']' :: r => if (skipWs r).isEmpty then some (item :: acc).reverse else none
        | _ => none

/-- Model of the host JSON.parse restricted to what the amenities field
can hold: a JSON array whose elements are strings or scalar tokens.
`none` models a thrown SyntaxError (any other input shape). -/
def parseJsonArray (s : String) : Option (List JsItem) :=
  match s.toList with
  | '[' :: rest =>
    (match skipWs rest with
     | ']' :: r => if (skipWs r).isEmpty then some [] else none
     | _ => parseItemsAux (rest.length + 1) rest [])
  | _ => none

/-- JS String.startsWith on the model strings. -/
def strStartsWith (s pre : String) : Bool :=
  pre.toList.isPrefixOf s.toList

/-- JS String.endsWith on the model strings. -/
def strEndsWith (s suf : String) : Bool :=
  suf.toList.isSuffixOf s.toList

/-- The special case of the source: the array holds exactly one element,
it is a string, and it is bracketed; returns that string. -/
def singleBracketed : List JsItem → Option String
  | [JsItem.strVal s] =>
    if strStartsWith s "[" && strEndsWith s "]" then some s else none
  | _ => none

/-- parseAmenities (script.js lines 176-198): absent data gives the empty
list; a sequence wrapping one bracketed serialized string is JSON-parsed
(empty list on failure); any other sequence is filtered to its string
elements; a single bracketed string is JSON-parsed (empty list on
failure); everything else degrades to the empty list.  An empty string is
falsy in the source's first guard and also yields the empty list. -/
def parseAmenities : StoredAmenities → List JsItem
  | .absent => []
  | .list items =>
    (match singleBracketed items with
     | some s => (parseJsonArray s).getD []
     | none => items.filter JsItem.isStr)
  | .strVal s =>
    if s == "" then []
    else if strStartsWith s "[" && strEndsWith s "]" then (parseJsonArray s).getD []
    else []

/-! ## REST relay ordering clause (index.js lines 43-46) -/

/-- JS String.split with a single-character separator. -/
def splitOnChar (sep : Char) : List Char → List (List Char)
  | [] => [[]]
  | c :: cs =>
    let r := splitOnChar sep cs
    if c == sep then [] :: r
    else
      match r with
      | [] => [[c]]
      | h :: t => (c :: h) :: t

/-- JS split('-')-style splitting of a string. -/
def jsSplit (s : String) (sep : Char) : List String :=
  (splitOnChar sep s.toList).map String.mk

/-- JS String.includes with a single-character needle. -/
def containsChar (s : String) (c : Char) : Bool :=
  s.toList.contains c

/-- The destructuring in the relay: with a '-' present, field and
direction are the FIRST TWO segments of split('-'); otherwise the whole
value with direction 'asc'. -/
def parseSortParam (sortBy : String) : String × String :=
  if containsChar sortBy '-' then
    ((jsSplit sortBy '-').getD 0 "", (jsSplit sortBy '-').getD 1 "")
  else (sortBy, "asc")

/-- The ordering clause GET /api/flats adds to the store query: none when
the sortBy parameter is missing or empty (JS falsiness of the guard),
otherwise the parsed field/direction pair. -/
def relayOrderClause (sortBy : Option String) : Option (String × String) :=
  match sortBy with
  | none => none
  | some s => if s == "" then none else some (parseSortParam s)

/-- The ordering rule as the claim states it: absent parameter means no
clause; a value with no '-' is the whole field ascending; a value with a
'-' splits at the FIRST '-', all following text being the direction. -/
def relayOrderClauseClaimed (sortBy : Option String) : Option (String × String) :=
  match sortBy with
  | none => none
  | some s =>
    if containsChar s '-' then
      some (String.mk (s.toList.takeWhile (fun c => !(c == '-'))),
            String.mk ((s.toList.dropWhile (fun c => !(c == '-'))).drop 1))
    else some (s, "asc")

/-- The amended ordering rule: missing or empty parameter means no
clause; a value with no '-' is the whole field ascending; with a '-',
the field is the text before the first '-' and the direction is the text
between the first and second '-' (the second split segment only). -/
def relayOrderClauseAmended (sortBy : Option String) : Option (String × String) :=
  match sortBy with
  | none => none
  | some s =>
    if s == "" then none
    else if containsChar s '-' then
      some (String.mk (s.toList.takeWhile (fun c => !(c == '-'))),
            String.mk (((s.toList.dropWhile (fun c => !(c == '-'))).drop 1).takeWhile
              (fun c => !(c == '-'))))
    else some (s, "asc")

/-! ## The price-bound composition as claim C6 states it -/

/-- A price-bound stage following the claim's words: a failed numeric
parse is treated as the field being absent, adding no predicate. -/
def priceStageClaimed (raw : String) (cmp : JsNum → Flat → Bool) (l : List Flat) : List Flat :=
  if raw == "" then l
  else
    match jsParseFloat raw with
    | some v => l.filter (cmp v)
    | none => l

/-- The filter chain with the claim's treatment of unparsable price
bounds; to be compared with `applyFilters`. -/
def applyFiltersClaimed (f : FilterState) (favorites : List String) (store : List Flat) : List Flat :=
  let s1 := stageEq (!(f.offerType == "all")) (fun u => u.offerType == f.offerType) store
  let s2 := stageEq (!(f.flatType == "all")) (fun u => u.type == f.flatType) s1
  let s3 := priceStageClaimed f.minPrice (fun v u => jsNumLe v u.price) s2
  let s4 := priceStageClaimed f.maxPrice (fun v u => jsNumLe u.price v) s3
  stageEq (f.showFavorites && !favorites.isEmpty) (fun u => favorites.contains u.id) s4

/-! ## Concrete records used by witnesses and counterexamples -/

/-- A concrete rental unit. -/
def flatA : Flat := { id := "flatA", price := 100, area := 50, offerType := "rent", type := "studio" }

/-- A filter snapshot asking for rentals of at least 50. -/
def filtersRent : FilterState :=
  { initialFilters with offerType := "rent", minPrice := "50" }

/-- A filter snapshot with the favorites-only toggle on. -/
def filtersFavOnly : FilterState := { initialFilters with showFavorites := true }

/-- A page state already holding one accumulated record. -/
def pageWithA : PageState := { initialPageState with allFlatsData := [flatA] }

/-! ## Membership lemmas for the query pipeline -/

theorem mem_insertLe (le : Flat → Flat → Bool) (x a : Flat) (l : List Flat) :
    a ∈ insertLe le x l ↔ a = x ∨ a ∈ l := by
  induction l with
  | nil => simp [insertLe]
  | cons y ys ih =>
    simp only [insertLe]
    by_cases h : le x y = true
    · simp [h]
    · simp [h, ih, List.mem_cons]
      tauto

theorem mem_sortListLe (le : Flat → Flat → Bool) (a : Flat) (l : List Flat) :
    a ∈ sortListLe le l ↔ a ∈ l := by
  induction l with
  | nil => simp [sortListLe]
  | cons x xs ih => simp [sortListLe, mem_insertLe, ih]

theorem mem_stageEq {u : Flat} {a : Bool} {p : Flat → Bool} {l : List Flat}
    (h : u ∈ stageEq a p l) : (a = true → p u = true) ∧ u ∈ l := by
  cases a with
  | false =>
    simp only [stageEq, Bool.false_eq_true, if_false] at h
    exact ⟨fun hcontra => absurd hcontra (by simp), h⟩
  | true =>
    simp only [stageEq, if_true] at h
    rw [List.mem_filter] at h
    exact ⟨fun _ => h.2, h.1⟩

theorem mem_priceStage {u : Flat} {raw : String} {cmp : JsNum → Flat → Bool}
    {l l' : List Flat} (hok : priceStage raw cmp l = Except.ok l') (h : u ∈ l') :
    (∀ v, raw ≠ "" → jsParseFloat raw = some v → cmp v u = true) ∧ u ∈ l := by
  unfold priceStage at hok
  by_cases hr : raw = ""
  · simp only [hr, beq_self_eq_true, if_true] at hok
    injection hok with e
    subst e
    exact ⟨fun v hne _ => absurd hr hne, h⟩
  · rw [if_neg (by simpa using hr)] at hok
    cases hp : jsParseFloat raw with
    | none =>
      rw [hp] at hok
      exact Except.noConfusion hok
    | some v =>
      rw [hp] at hok
      injection hok with e
      subst e
      rw [List.mem_filter] at h
      refine ⟨fun w _ hw => ?_, h.1⟩
      injection hw with e
      subst e
      exact h.2

theorem mem_priceStages {u : Flat} {f : FilterState} {l l' : List Flat}
    (hok : priceStages f l = Except.ok l') (h : u ∈ l') :
    (∀ v, f.minPrice ≠ "" → jsParseFloat f.minPrice = some v → jsNumLe v u.price = true) ∧
    (∀ v, f.maxPrice ≠ "" → jsParseFloat f.maxPrice = some v → jsNumLe u.price v = true) ∧
    u ∈ l := by
  unfold priceStages at hok
  split at hok
  · exact Except.noConfusion hok
  · rename_i l3 hmin
    obtain ⟨hmax, h3⟩ := mem_priceStage hok h
    obtain ⟨hmin, h1⟩ := mem_priceStage hmin h3
    exact ⟨hmin, hmax, h1⟩

theorem mem_applyFilters {u : Flat} {f : FilterState} {favs : List String}
    {store l : List Flat} (hok : applyFilters f favs store = Except.ok l) (h : u ∈ l) :
    (f.offerType ≠ "all" → u.offerType = f.offerType) ∧
    (f.flatType ≠ "all" → u.type = f.flatType) ∧
    (∀ v, f.minPrice ≠ "" → jsParseFloat f.minPrice = some v → jsNumLe v u.price = true) ∧
    (∀ v, f.maxPrice ≠ "" → jsParseFloat f.maxPrice = some v → jsNumLe u.price v = true) ∧
    u ∈ store := by
  unfold applyFilters at hok
  split at hok
  · exact Except.noConfusion hok
  · rename_i s4 hps
    injection hok with e
    subst e
    obtain ⟨_, h4⟩ := mem_stageEq h
    obtain ⟨hmin, hmax, h2⟩ := mem_priceStages hps h4
    obtain ⟨hflat, h1⟩ := mem_stageEq h2
    obtain ⟨hoffer, hstore⟩ := mem_stageEq h1
    refine ⟨fun hne => ?_, fun hne => ?_, hmin, hmax, hstore⟩
    · have := hoffer (by simpa using hne)
      simpa using this
    · have := hflat (by simpa using hne)
      simpa using this

theorem mem_pageFor {u : Flat} {sortBy : String} {cursor : Option Flat}
    {filtered : List Flat} (h : u ∈ pageFor sortBy cursor filtered) : u ∈ filtered := by
  unfold pageFor at h
  have h1 := (List.take_sublist _ _).subset h
  have h2 : u ∈ sortListLe (sortLe sortBy) filtered := by
    unfold startAfterDoc at h1
    cases cursor with
    | none => exact h1
    | some c => exact (List.dropWhile_sublist _).subset ((List.drop_sublist _ _).subset h1)
  exact (mem_sortListLe _ _ _).mp h2

/-! ## Claim theorems -/

/-- C1: for every filter snapshot, applying it and fetching yields
accumulated records containing only units that satisfy every active
predicate — offerType equality when not 'all', flatType equality when
not 'all', a price lower bound when minPrice is present (non-empty and
parsable), a price upper bound when maxPrice is present. -/
theorem applyThenFetch_only_matching (env : FetchEnv) (f : FilterState) (s0 : PageState)
    (u : Flat) (hu : u ∈ (handleApplyFilters env f s0).state.allFlatsData) :
    (f.offerType ≠ "all" → u.offerType = f.offerType) ∧
    (f.flatType ≠ "all" → u.type = f.flatType) ∧
    (∀ v, f.minPrice ≠ "" → jsParseFloat f.minPrice = some v → jsNumLe v u.price = true) ∧
    (∀ v, f.maxPrice ≠ "" → jsParseFloat f.maxPrice = some v → jsNumLe u.price v = true) := by
  cases happ : applyFilters f env.favorites env.store with
  | error e =>
    exfalso
    simp [handleApplyFilters, fetchFlats, happ, resetState] at hu
  | ok filtered =>
    have hmem : u ∈ filtered := by
      simp only [handleApplyFilters, fetchFlats, happ, if_true] at hu
      by_cases h1 : (f.showFavorites && env.favorites.isEmpty) = true
      · simp [h1, resetState] at hu
      · simp only [h1, if_false, Bool.false_eq_true] at hu
        by_cases h2 : env.netFail = true
        · simp [h2, resetState] at hu
        · simp only [h2, if_false, Bool.false_eq_true] at hu
          split at hu
          · simp [resetState] at hu
            exact mem_pageFor hu
          · simp [resetState] at hu
    have := mem_applyFilters happ hmem
    exact ⟨this.1, this.2.1, this.2.2.1, this.2.2.2.1⟩

/-- C1 witness: a concrete reset fetch whose accumulated records contain
a unit, which the theorem then shows matches the offerType filter. -/
theorem applyThenFetch_only_matching_witness :
    flatA ∈ (handleApplyFilters ⟨[flatA], [], false⟩ filtersRent initialPageState).state.allFlatsData ∧
    flatA.offerType = "rent" :=
  ⟨by decide,
   (applyThenFetch_only_matching ⟨[flatA], [], false⟩ filtersRent initialPageState flatA
      (by decide)).1 (by decide)⟩

/-- A price stage whose raw bound is empty or numerically parsable does
not throw. -/
theorem priceStage_isOk (raw : String) (cmp : JsNum → Flat → Bool) (l : List Flat)
    (h : raw = "" ∨ (jsParseFloat raw).isSome = true) :
    ∃ l', priceStage raw cmp l = Except.ok l' := by
  unfold priceStage
  by_cases hr : (raw == "") = true
  · exact ⟨l, by rw [if_pos hr]⟩
  · rcases h with h | h
    · exact absurd (by simp [h]) hr
    · cases hp : jsParseFloat raw with
      | none => rw [hp] at h; simp at h
      | some v =>
        refine ⟨l.filter (cmp v), ?_⟩
        rw [if_neg hr]

/-- Both price stages succeed when each bound is empty or parsable. -/
theorem priceStages_isOk (f : FilterState) (l : List Flat)
    (hmin : f.minPrice = "" ∨ (jsParseFloat f.minPrice).isSome = true)
    (hmax : f.maxPrice = "" ∨ (jsParseFloat f.maxPrice).isSome = true) :
    ∃ l', priceStages f l = Except.ok l' := by
  obtain ⟨l3, h3⟩ := priceStage_isOk f.minPrice (fun v u => jsNumLe v u.price) l hmin
  obtain ⟨l4, h4⟩ := priceStage_isOk f.maxPrice (fun v u => jsNumLe u.price v) l3 hmax
  refine ⟨l4, ?_⟩
  unfold priceStages
  rw [h3]
  exact h4

/-- Query composition succeeds when each price bound is empty or
parsable. -/
theorem applyFilters_isOk (f : FilterState) (favs : List String) (store : List Flat)
    (hmin : f.minPrice = "" ∨ (jsParseFloat f.minPrice).isSome = true)
    (hmax : f.maxPrice = "" ∨ (jsParseFloat f.maxPrice).isSome = true) :
    ∃ l, applyFilters f favs store = Except.ok l := by
  obtain ⟨l4, h4⟩ := priceStages_isOk f
    (stageEq (!(f.flatType == "all")) (fun u => u.type == f.flatType)
      (stageEq (!(f.offerType == "all")) (fun u => u.offerType == f.offerType) store))
    hmin hmax
  refine ⟨stageEq (f.showFavorites && !favs.isEmpty) (fun u => favs.contains u.id) l4, ?_⟩
  unfold applyFilters
  rw [h4]

/-- C2 counterexample: a fetch with showFavorites on and no favorites but
an unparsable minPrice signals the generic load error, not 'no
favorites' — the throwing price where() clause (lines 625-630) is
composed before the favorites-empty branch (line 633). -/
theorem fetch_noFavorites_nanBound_counterexample :
    (fetchFlats ⟨[flatA], [], false⟩ { filtersFavOnly with minPrice := "abc" } true
        initialPageState).signal = FetchSignal.loadError ∧
    (fetchFlats ⟨[flatA], [], false⟩ { filtersFavOnly with minPrice := "abc" } true
        initialPageState).signal ≠ FetchSignal.noFavorites ∧
    (fetchFlats ⟨[flatA], [], false⟩ { filtersFavOnly with minPrice := "abc" } true
        initialPageState).state.noFlatsText = loadErrorText := by
  decide

/-- C2 amended: a fetch issued while showFavorites is on and the
favorites set is empty short-circuits — no store round trip, an empty
result, and the 'no favorites' signal and message — provided the query
composition does not throw, i.e. each price bound is empty or
numerically parsable; an unparsable non-empty bound throws in where()
first and the fetch signals the generic load error instead. -/
theorem fetch_noFavorites_shortCircuit (env : FetchEnv) (f : FilterState) (reset : Bool)
    (s0 : PageState) (hsf : f.showFavorites = true) (hfav : env.favorites = [])
    (hmin : f.minPrice = "" ∨ (jsParseFloat f.minPrice).isSome = true)
    (hmax : f.maxPrice = "" ∨ (jsParseFloat f.maxPrice).isSome = true) :
    (fetchFlats env f reset s0).networkCalls = 0 ∧
    (fetchFlats env f reset s0).fetched = [] ∧
    (fetchFlats env f reset s0).signal = FetchSignal.noFavorites ∧
    (fetchFlats env f reset s0).state.noFlatsVisible = true ∧
    (fetchFlats env f reset s0).state.noFlatsText = noFavoritesText := by
  obtain ⟨l, hl⟩ := applyFilters_isOk f env.favorites env.store hmin hmax
  rw [hfav] at hl
  simp [fetchFlats, hl, hsf, hfav]

/-- C2 witness: the short-circuit at a concrete empty-favorites state. -/
theorem fetch_noFavorites_shortCircuit_witness :
    (fetchFlats ⟨[flatA], [], false⟩ filtersFavOnly true initialPageState).networkCalls = 0 ∧
    (fetchFlats ⟨[flatA], [], false⟩ filtersFavOnly true initialPageState).fetched = [] ∧
    (fetchFlats ⟨[flatA], [], false⟩ filtersFavOnly true initialPageState).signal =
      FetchSignal.noFavorites ∧
    (fetchFlats ⟨[flatA], [], false⟩ filtersFavOnly true initialPageState).state.noFlatsVisible =
      true ∧
    (fetchFlats ⟨[flatA], [], false⟩ filtersFavOnly true initialPageState).state.noFlatsText =
      noFavoritesText :=
  fetch_noFavorites_shortCircuit ⟨[flatA], [], false⟩ filtersFavOnly true initialPageState
    (by decide) (by decide) (by decide) (by decide)

/-- A page state already holding a pagination cursor. -/
def pageCursorA : PageState := { initialPageState with lastVisibleFlat := some flatA }

/-- C3 counterexample: a transport-failing RESET fetch does not leave the
accumulated records as they were before the call — the reset cleared them
before the query was attempted, so they end empty, not `[flatA]`. -/
theorem fetch_error_reset_counterexample :
    (fetchFlats ⟨[], [], true⟩ initialFilters true pageWithA).signal = FetchSignal.loadError ∧
    pageWithA.allFlatsData = [flatA] ∧
    (fetchFlats ⟨[], [], true⟩ initialFilters true pageWithA).state.allFlatsData = [] := by
  decide

/-- C3 amended: a fetch that fails with a transport error aborts with the
generic load-failure message, merges nothing, issues no retry (at most the
one round trip), and leaves the accumulated records unchanged on a
continuation call — but empty on a reset call, because the reset clears
them before the query is attempted. -/
theorem fetch_error_preserves (env : FetchEnv) (f : FilterState) (reset : Bool) (s0 : PageState)
    (herr : (fetchFlats env f reset s0).signal = FetchSignal.loadError) :
    (fetchFlats env f reset s0).state.allFlatsData = (if reset then [] else s0.allFlatsData) ∧
    (fetchFlats env f reset s0).fetched = [] ∧
    (fetchFlats env f reset s0).state.noFlatsText = loadErrorText ∧
    (fetchFlats env f reset s0).networkCalls ≤ 1 := by
  cases happ : applyFilters f env.favorites env.store with
  | error e =>
    cases reset <;> simp [fetchFlats, resetState, happ]
  | ok filtered =>
    by_cases h1 : (f.showFavorites && env.favorites.isEmpty) = true
    · simp [fetchFlats, happ, h1] at herr
    · by_cases h2 : env.netFail = true
      · cases reset <;> simp [fetchFlats, resetState, happ, h1, h2]
      · cases reset with
        | false =>
          simp only [fetchFlats, happ, h1, h2, Bool.false_eq_true, if_false] at herr
          split at herr
          · simp at herr
          · simp at herr
        | true =>
          simp only [fetchFlats, resetState, happ, h1, h2, Bool.false_eq_true, if_false,
            if_true] at herr
          split at herr
          · simp at herr
          · simp at herr

/-- C3 witness: a failing continuation fetch at a concrete state. -/
theorem fetch_error_preserves_witness :
    (fetchFlats ⟨[], [], true⟩ initialFilters false pageWithA).state.allFlatsData =
      (if false then [] else pageWithA.allFlatsData) ∧
    (fetchFlats ⟨[], [], true⟩ initialFilters false pageWithA).fetched = [] ∧
    (fetchFlats ⟨[], [], true⟩ initialFilters false pageWithA).state.noFlatsText = loadErrorText ∧
    (fetchFlats ⟨[], [], true⟩ initialFilters false pageWithA).networkCalls ≤ 1 :=
  fetch_error_preserves ⟨[], [], true⟩ initialFilters false pageWithA (by decide)

/-- C4 counterexample: a successful continuation fetch that returns an
empty page leaves the cursor at its previous marker instead of clearing
it — the claim says the cursor is absent whenever the page was empty. -/
theorem fetch_emptyPage_cursor_counterexample :
    (fetchFlats ⟨[], [], false⟩ initialFilters false pageCursorA).signal =
      FetchSignal.endOfPagination ∧
    (fetchFlats ⟨[], [], false⟩ initialFilters false pageCursorA).fetched = [] ∧
    (fetchFlats ⟨[], [], false⟩ initialFilters false pageCursorA).state.lastVisibleFlat =
      some flatA := by
  decide

/-- C4 amended: after a successful fetch the cursor equals the marker of
the last record of the returned page when that page is non-empty; when
the page is empty the cursor keeps its prior value — absent on a reset
fetch, the previous page's marker on a continuation — rather than being
cleared. -/
theorem fetch_success_cursor (env : FetchEnv) (f : FilterState) (reset : Bool) (s0 : PageState)
    (hok : (fetchFlats env f reset s0).signal ≠ FetchSignal.loadError) :
    (fetchFlats env f reset s0).state.lastVisibleFlat =
      (if (fetchFlats env f reset s0).fetched = [] then
        (if reset then none else s0.lastVisibleFlat)
      else (fetchFlats env f reset s0).fetched.getLast?) := by
  cases happ : applyFilters f env.favorites env.store with
  | error e => exact absurd (by simp [fetchFlats, happ]) hok
  | ok filtered =>
    by_cases h1 : (f.showFavorites && env.favorites.isEmpty) = true
    · cases reset <;> simp [fetchFlats, resetState, happ, h1]
    · by_cases h2 : env.netFail = true
      · exact absurd (by simp [fetchFlats, happ, h1, h2]) hok
      · cases reset with
        | false =>
          simp only [fetchFlats, happ, h1, h2, Bool.false_eq_true, if_false]
          split
          · rename_i h3
            simp [List.length_pos.mp h3]
          · simp
        | true =>
          simp only [fetchFlats, resetState, happ, h1, h2, Bool.false_eq_true, if_false,
            if_true]
          split
          · rename_i h3
            simp [List.length_pos.mp h3]
          · simp

/-- C4 witness: a successful concrete reset fetch, its cursor given by
the theorem. -/
theorem fetch_success_cursor_witness :
    (fetchFlats ⟨[flatA], [], false⟩ initialFilters true initialPageState).state.lastVisibleFlat =
      (if (fetchFlats ⟨[flatA], [], false⟩ initialFilters true initialPageState).fetched = [] then
        (if true then none else initialPageState.lastVisibleFlat)
      else (fetchFlats ⟨[flatA], [], false⟩ initialFilters true initialPageState).fetched.getLast?) :=
  fetch_success_cursor ⟨[flatA], [], false⟩ initialFilters true initialPageState (by decide)

/-- C5: after any successful fetch, the load-more affordance is offered
iff the number of records in the returned page equals exactly the page
size (6). -/
theorem fetch_success_loadMore (env : FetchEnv) (f : FilterState) (reset : Bool) (s0 : PageState)
    (hok : (fetchFlats env f reset s0).signal ≠ FetchSignal.loadError) :
    ((fetchFlats env f reset s0).state.loadMoreVisible = true ↔
      (fetchFlats env f reset s0).fetched.length = flatsPerPage) := by
  cases happ : applyFilters f env.favorites env.store with
  | error e => exact absurd (by simp [fetchFlats, happ]) hok
  | ok filtered =>
    by_cases h1 : (f.showFavorites && env.favorites.isEmpty) = true
    · cases reset <;> simp [fetchFlats, resetState, happ, h1, flatsPerPage]
    · by_cases h2 : env.netFail = true
      · exact absurd (by simp [fetchFlats, happ, h1, h2]) hok
      · cases reset with
        | false =>
          simp only [fetchFlats, happ, h1, h2, Bool.false_eq_true, if_false]
          split
          · simp [flatsPerPage]
          · simp [flatsPerPage]
        | true =>
          simp only [fetchFlats, resetState, happ, h1, h2, Bool.false_eq_true, if_false,
            if_true]
          split
          · simp [flatsPerPage]
          · simp [flatsPerPage]

/-- C5 witness: the heuristic at a concrete one-record store (one record
fetched, load-more hidden). -/
theorem fetch_success_loadMore_witness :
    ((fetchFlats ⟨[flatA], [], false⟩ initialFilters true initialPageState).state.loadMoreVisible =
        true ↔
      (fetchFlats ⟨[flatA], [], false⟩ initialFilters true initialPageState).fetched.length =
        flatsPerPage) :=
  fetch_success_loadMore ⟨[flatA], [], false⟩ initialFilters true initialPageState (by decide)

/-! ## Lemmas about throwing price stages -/

/-- A non-empty bound whose numeric parse fails makes the where() clause
throw. -/
theorem priceStage_error (raw : String) (cmp : JsNum → Flat → Bool) (l : List Flat)
    (hraw : raw ≠ "") (hp : jsParseFloat raw = none) :
    priceStage raw cmp l = Except.error () := by
  unfold priceStage
  rw [if_neg (by simpa using hraw), hp]

/-- The price-stage pair throws when either bound is non-empty and
unparsable. -/
theorem priceStages_error (f : FilterState) (l : List Flat)
    (h : (f.minPrice ≠ "" ∧ jsParseFloat f.minPrice = none) ∨
         (f.maxPrice ≠ "" ∧ jsParseFloat f.maxPrice = none)) :
    priceStages f l = Except.error () := by
  unfold priceStages
  rcases h with ⟨hne, hp⟩ | ⟨hne, hp⟩
  · rw [priceStage_error _ _ _ hne hp]
  · cases hm : priceStage f.minPrice (fun v u => jsNumLe v u.price) l with
    | error e => cases e; rfl
    | ok l3 => exact priceStage_error _ _ _ hne hp

/-- Query composition throws when either price bound is non-empty and
unparsable. -/
theorem applyFilters_error (f : FilterState) (favs : List String) (store : List Flat)
    (h : (f.minPrice ≠ "" ∧ jsParseFloat f.minPrice = none) ∨
         (f.maxPrice ≠ "" ∧ jsParseFloat f.maxPrice = none)) :
    applyFilters f favs store = Except.error () := by
  unfold applyFilters
  rw [priceStages_error _ _ h]

/-- C6 counterexample: with the unparsable bound minPrice = "abc", the
source's composition throws (the SDK rejects the NaN range bound) and
the fetch surfaces the generic load error, while the claim's
treat-as-absent composition succeeds and returns the store's record — a
price where() clause IS attempted for the unparsable field. -/
theorem priceBound_parseFailure_counterexample :
    applyFilters { initialFilters with minPrice := "abc" } [] [flatA] = Except.error () ∧
    applyFiltersClaimed { initialFilters with minPrice := "abc" } [] [flatA] = [flatA] ∧
    (fetchFlats ⟨[flatA], [], false⟩ { initialFilters with minPrice := "abc" } true
        initialPageState).signal = FetchSignal.loadError ∧
    (fetchFlats ⟨[flatA], [], false⟩ { initialFilters with minPrice := "abc" } true
        initialPageState).state.noFlatsText = loadErrorText :=
  ⟨rfl, by decide, by decide, by decide⟩

/-- C6 amended: the price-bound clause is guarded by truthiness of the
raw string, not by parse success; when the parse of a non-empty bound
fails, the field is NOT treated as absent — the where() clause receives
a NaN range bound, the store SDK rejects it at query construction, and
the fetch takes the error path: the generic load-failure message, no
round trip, nothing fetched.  The field is treated as absent exactly
when its raw string is empty. -/
theorem priceBound_parseFailure_throws (env : FetchEnv) (f : FilterState) (reset : Bool)
    (s0 : PageState)
    (h : (f.minPrice ≠ "" ∧ jsParseFloat f.minPrice = none) ∨
         (f.maxPrice ≠ "" ∧ jsParseFloat f.maxPrice = none)) :
    applyFilters f env.favorites env.store = Except.error () ∧
    (fetchFlats env f reset s0).signal = FetchSignal.loadError ∧
    (fetchFlats env f reset s0).networkCalls = 0 ∧
    (fetchFlats env f reset s0).fetched = [] ∧
    (fetchFlats env f reset s0).state.noFlatsText = loadErrorText := by
  have happ := applyFilters_error f env.favorites env.store h
  refine ⟨happ, ?_, ?_, ?_, ?_⟩ <;> simp [fetchFlats, happ]

/-- C6 witness: the amended behaviour on a concrete unparsable bound. -/
theorem priceBound_parseFailure_throws_witness :
    applyFilters { initialFilters with maxPrice := "n/a" } [] [flatA] = Except.error () ∧
    (fetchFlats ⟨[flatA], [], false⟩ { initialFilters with maxPrice := "n/a" } false
        initialPageState).signal = FetchSignal.loadError ∧
    (fetchFlats ⟨[flatA], [], false⟩ { initialFilters with maxPrice := "n/a" } false
        initialPageState).networkCalls = 0 ∧
    (fetchFlats ⟨[flatA], [], false⟩ { initialFilters with maxPrice := "n/a" } false
        initialPageState).fetched = [] ∧
    (fetchFlats ⟨[flatA], [], false⟩ { initialFilters with maxPrice := "n/a" } false
        initialPageState).state.noFlatsText = loadErrorText :=
  priceBound_parseFailure_throws ⟨[flatA], [], false⟩
    { initialFilters with maxPrice := "n/a" } false initialPageState
    (Or.inr ⟨by decide, by decide⟩)

/-- C7: currency redisplay is pure and idempotent — it re-renders the
accumulated records through the conversion price times rate of the target
currency applied to the stored base price, leaves the accumulated records
untouched (no fetch), converting A to B and back to A reproduces the
original displayed prices exactly, and repeating a conversion changes
nothing. -/
theorem currency_redisplay_pure (a b : String) (s : DisplayState) :
    handleCurrencyChange a (handleCurrencyChange b (handleCurrencyChange a s)) =
      handleCurrencyChange a s ∧
    handleCurrencyChange a (handleCurrencyChange a s) = handleCurrencyChange a s ∧
    (handleCurrencyChange a s).allFlatsData = s.allFlatsData ∧
    (handleCurrencyChange a s).rendered =
      s.allFlatsData.map (fun u => displayPrice a u.price) := by
  simp [handleCurrencyChange]

/-- C8 counterexample: when the auth state becomes unauthenticated, the
locally cached favorites entry is removed and the in-memory set cleared,
not left unchanged as the claim states. -/
theorem favorites_signOut_counterexample :
    (onAuthSignedOut ⟨["flatA"], some ["flatA"]⟩).localFavorites ≠ some ["flatA"] ∧
    (onAuthSignedOut ⟨["flatA"], some ["flatA"]⟩).favorites = [] := by
  decide

/-- C8 amended: the favorites set is mirrored between the remote record
and the local cache — a successful toggle applied to equal
duplicate-free mirrors keeps them equal — but when the auth state
becomes unauthenticated, both the in-memory set and the local cache
entry are cleared, not preserved. -/
theorem favorites_mirror_and_signOut_clears (s : AuthFavState) (flatId : String)
    (remote locl : List String) :
    (onAuthSignedOut s).favorites = [] ∧
    (onAuthSignedOut s).localFavorites = none ∧
    (remote = locl → remote.Nodup →
      (toggleFavorite flatId remote locl).1 = (toggleFavorite flatId remote locl).2) := by
  refine ⟨rfl, rfl, fun heq hnd => ?_⟩
  subst heq
  unfold toggleFavorite
  by_cases hc : remote.contains flatId = true
  · rw [if_pos hc]
    simp only []
    rw [List.Nodup.erase_eq_filter hnd]
    apply List.filter_congr
    intro x _
    rfl
  · rw [if_neg hc]

/-- C8 witness: the amended behaviour at concrete states. -/
theorem favorites_mirror_and_signOut_clears_witness :
    (onAuthSignedOut ⟨["u1"], some ["u1"]⟩).favorites = [] ∧
    (onAuthSignedOut ⟨["u1"], some ["u1"]⟩).localFavorites = none ∧
    (toggleFavorite "u2" ["u1"] ["u1"]).1 = (toggleFavorite "u2" ["u1"] ["u1"]).2 := by
  have h := favorites_mirror_and_signOut_clears ⟨["u1"], some ["u1"]⟩ "u2" ["u1"] ["u1"]
  exact ⟨h.1, h.2.1, h.2.2 rfl (by decide)⟩

/-- C9: parseAmenities is total — absent data gives the empty list, a
plain or bracketed string that is not parsable JSON degrades to the empty
list, a sequence wrapping one bracketed string whose parse fails degrades
to the empty list, and any other sequence is filtered to its string
elements; no input raises an error. -/
theorem parseAmenities_defensive :
    parseAmenities StoredAmenities.absent = [] ∧
    (∀ s, (strStartsWith s "[" && strEndsWith s "]") = false →
      parseAmenities (StoredAmenities.strVal s) = []) ∧
    (∀ s, parseJsonArray s = none → parseAmenities (StoredAmenities.strVal s) = []) ∧
    (∀ s, strStartsWith s "[" = true → strEndsWith s "]" = true → parseJsonArray s = none →
      parseAmenities (StoredAmenities.list [JsItem.strVal s]) = []) ∧
    (∀ items, singleBracketed items = none →
      parseAmenities (StoredAmenities.list items) = items.filter JsItem.isStr) := by
  refine ⟨rfl, ?_, ?_, ?_, ?_⟩
  · intro s h
    simp only [parseAmenities]
    by_cases he : (s == "") = true
    · rw [if_pos he]
    · rw [if_neg he, if_neg (ne_true_of_eq_false h)]
  · intro s hp
    simp only [parseAmenities]
    by_cases he : (s == "") = true
    · rw [if_pos he]
    · rw [if_neg he]
      by_cases hb : (strStartsWith s "[" && strEndsWith s "]") = true
      · rw [if_pos hb, hp]
        rfl
      · rw [if_neg hb]
  · intro s hs he hp
    have hsb : singleBracketed [JsItem.strVal s] = some s := by
      simp only [singleBracketed]
      rw [hs, he]
      rfl
    simp only [parseAmenities]
    rw [hsb]
    simp [hp]
  · intro items hsb
    simp only [parseAmenities]
    rw [hsb]

/-- C9 witness: the defensive behaviour at concrete stored values. -/
theorem parseAmenities_defensive_witness :
    parseAmenities (StoredAmenities.strVal "oops") = [] ∧
    parseAmenities (StoredAmenities.strVal "[oops") = [] ∧
    parseAmenities (StoredAmenities.list [JsItem.strVal "[nope]"]) = [] ∧
    parseAmenities (StoredAmenities.list [JsItem.strVal "x", JsItem.otherVal]) =
      [JsItem.strVal "x"] := by
  have h := parseAmenities_defensive
  exact ⟨h.2.1 "oops" (by decide), h.2.1 "[oops" (by decide),
    h.2.2.2.1 "[nope]" (by decide) (by decide) (by decide),
    (h.2.2.2.2 [JsItem.strVal "x", JsItem.otherVal] (by decide)).trans (by decide)⟩

/-! ## Lemmas about JS split for the relay ordering clause -/

/-- The tail parts of a split: nothing when no separator occurs, else
the split of the text after the first separator. -/
def splitTailParts (sep : Char) (l : List Char) : List (List Char) :=
  match l.dropWhile (fun c => !(c == sep)) with
  | [] => []
  | _ :: rest => splitOnChar sep rest

theorem splitOnChar_eq (sep : Char) :
    ∀ l : List Char, splitOnChar sep l =
      l.takeWhile (fun c => !(c == sep)) :: splitTailParts sep l := by
  intro l
  induction l with
  | nil => rfl
  | cons c cs ih =>
    by_cases hc : (c == sep) = true
    · simp [splitOnChar, splitTailParts, hc, List.takeWhile_cons, List.dropWhile_cons]
    · simp only [splitOnChar, hc, if_false, Bool.false_eq_true, ih, splitTailParts,
        List.takeWhile_cons, List.dropWhile_cons, Bool.not_eq_true']
      simp [hc]

theorem contains_dropWhile_cons (sep : Char) :
    ∀ l : List Char, l.contains sep = true →
      ∃ rest, l.dropWhile (fun c => !(c == sep)) = sep :: rest := by
  intro l
  induction l with
  | nil => intro h; simp at h
  | cons c cs ih =>
    intro h
    by_cases hc : c = sep
    · subst hc
      exact ⟨cs, by simp [List.dropWhile_cons]⟩
    · have hcs : cs.contains sep = true := by
        simp only [List.contains_cons, Bool.or_eq_true, beq_iff_eq] at h
        rcases h with h | h
        · exact absurd h.symm hc
        · exact h
      obtain ⟨rest, hr⟩ := ih hcs
      refine ⟨rest, ?_⟩
      rw [List.dropWhile_cons, if_pos (by simp [hc]), hr]

theorem jsSplit_getD_zero (sep : Char) (s : String) :
    (jsSplit s sep).getD 0 "" = String.mk (s.toList.takeWhile (fun c => !(c == sep))) := by
  unfold jsSplit
  rw [splitOnChar_eq]
  rfl

theorem jsSplit_getD_one (sep : Char) (s : String) (h : containsChar s sep = true) :
    (jsSplit s sep).getD 1 "" =
      String.mk (((s.toList.dropWhile (fun c => !(c == sep))).drop 1).takeWhile
        (fun c => !(c == sep))) := by
  unfold jsSplit
  obtain ⟨rest, hr⟩ := contains_dropWhile_cons sep s.toList (by simpa [containsChar] using h)
  rw [splitOnChar_eq]
  unfold splitTailParts
  rw [hr]
  dsimp only
  rw [splitOnChar_eq]
  simp

/-- C10 counterexample: at sortBy = "price-desc-x" the relay uses only
the second '-'-separated segment ("desc") as the direction, not all text
after the first '-' ("desc-x"); and at the present-but-empty value the
relay adds no ordering clause while the claim's reading yields one. -/
theorem relayOrder_counterexample :
    relayOrderClause (some "price-desc-x") = some ("price", "desc") ∧
    relayOrderClauseClaimed (some "price-desc-x") = some ("price", "desc-x") ∧
    relayOrderClause (some "price-desc-x") ≠ relayOrderClauseClaimed (some "price-desc-x") ∧
    relayOrderClause (some "") = none ∧
    relayOrderClauseClaimed (some "") = some ("", "asc") := by
  decide

/-- C10 amended: the relay's ordering clause equals the amended rule —
no clause when the parameter is missing or empty; the whole value
ascending when it has no '-'; otherwise the text before the first '-' as
field and the text between the first and second '-' as direction. -/
theorem relayOrder_matches_amended (q : Option String) :
    relayOrderClause q = relayOrderClauseAmended q := by
  cases q with
  | none => rfl
  | some s =>
    simp only [relayOrderClause, relayOrderClauseAmended, parseSortParam]
    by_cases hs : (s == "") = true
    · rw [if_pos hs, if_pos hs]
    · rw [if_neg hs, if_neg hs]
      by_cases hc : containsChar s '-' = true
      · rw [if_pos hc, if_pos hc, jsSplit_getD_zero, jsSplit_getD_one _ _ hc]
      · rw [if_neg hc, if_neg hc]
